import Mathlib

/-!
Shallow embedding of the keyrot credential-multiplexing dispatcher
(src/app/circuit-breaker.ts, quota-tracker.ts, rate-limiter.ts, queue.ts,
selector part of queue.ts, pool.ts) and proofs about its behaviour.

Modelling conventions:
* JS numbers holding integer counts become Int or Nat; fractional token
  arithmetic becomes Rat.
* A JS Date is modelled by its millisecond timestamp together with the UTC
  calendar projections getUTCFullYear / getUTCMonth that the quota tracker
  reads (carried as data fields).
* Mutation of a KeyState becomes explicit state passing; the QuotaTracker
  warnedKeys set becomes a List String passed alongside.
* Callback hooks become Bool results recording whether the hook fired.
* Fire-and-forget storage writes do not affect in-memory state and are
  omitted.
-/

namespace Keyrot

/-- UTC instant as seen by the code: millisecond timestamp plus the calendar
projections used by QuotaTracker.checkPeriodReset. -/
structure Date where
  ms : Int
  utcYear : Int
  utcMonth : Int
deriving Repr, DecidableEq

/-- QuotaConfig from types.ts. -/
inductive QuotaConfig
  | monthly (limit : Int)
  | yearly (limit : Int)
  | total (limit : Int)
  | unlimited
deriving Repr, DecidableEq

/-- The limit of a bounded quota, none for unlimited. -/
def QuotaConfig.limit? : QuotaConfig → Option Int
  | .monthly l => some l
  | .yearly l => some l
  | .total l => some l
  | .unlimited => none

/-- KeyConfig from types.ts. -/
structure KeyConfig where
  id : String
  value : String
  quota : QuotaConfig
  rps : Option ℚ
  weight : Option ℕ
deriving Repr, DecidableEq

/-- Circuit breaker state values. -/
inductive CircuitState
  | closed
  | open'
  | halfOpen
deriving Repr, DecidableEq

/-- CircuitBreakerConfig from types.ts. -/
structure CircuitBreakerConfig where
  failureThreshold : ℕ
  resetTimeoutMs : Int
deriving Repr, DecidableEq

/-- KeyState from types.ts.  Timestamps that the code only ever reads through
getTime are plain millisecond Ints. -/
structure KeyState where
  config : KeyConfig
  quotaUsed : Int
  periodStart : Date
  rateLimitedUntil : Option Int
  circuitState : CircuitState
  circuitOpenUntil : Option Int
  consecutiveFailures : ℕ
  lastUsed : Option Int
  tokens : ℚ
  lastTokenRefill : Int
deriving Repr, DecidableEq

namespace CircuitBreaker

/-- CircuitBreaker.openCircuit: set state to open, stamp circuitOpenUntil,
return whether onKeyCircuitOpen fired (only on a not-already-open circuit). -/
def openCircuit (cfg : CircuitBreakerConfig) (nowMs : Int) (s : KeyState) :
    KeyState × Bool :=
  let wasOpen := s.circuitState = CircuitState.open'
  ({ s with
      circuitState := CircuitState.open'
      circuitOpenUntil := some (nowMs + cfg.resetTimeoutMs) },
    !decide wasOpen)

/-- CircuitBreaker.recordFailure: bump the counter, open when it reaches the
threshold.  Second component: whether onKeyCircuitOpen fired. -/
def recordFailure (cfg : CircuitBreakerConfig) (nowMs : Int) (s : KeyState) :
    KeyState × Bool :=
  let s := { s with consecutiveFailures := s.consecutiveFailures + 1 }
  if cfg.failureThreshold ≤ s.consecutiveFailures then
    openCircuit cfg nowMs s
  else
    (s, false)

/-- CircuitBreaker.recordSuccess. -/
def recordSuccess (s : KeyState) : KeyState :=
  let s := { s with consecutiveFailures := 0 }
  if s.circuitState = CircuitState.halfOpen then
    { s with circuitState := CircuitState.closed, circuitOpenUntil := none }
  else
    s

/-- CircuitBreaker.checkTransition: lazy open to half-open transition once the
reset timer has expired. -/
def checkTransition (nowMs : Int) (s : KeyState) : KeyState :=
  if s.circuitState = CircuitState.open' then
    match s.circuitOpenUntil with
    | none => s
    | some u =>
        if u ≤ nowMs then
          { s with circuitState := CircuitState.halfOpen, circuitOpenUntil := none }
        else
          s
  else
    s

/-- CircuitBreaker.isAvailable: run the lazy transition, then report whether
the circuit is not open. -/
def isAvailable (nowMs : Int) (s : KeyState) : Bool × KeyState :=
  let s := checkTransition nowMs s
  (!decide (s.circuitState = CircuitState.open'), s)

/-- CircuitBreaker.getState. -/
def getState (nowMs : Int) (s : KeyState) : CircuitState × KeyState :=
  let s := checkTransition nowMs s
  (s.circuitState, s)

/-- CircuitBreaker.getTimeUntilReset. -/
def getTimeUntilReset (nowMs : Int) (s : KeyState) : Int :=
  if s.circuitState = CircuitState.open' then
    match s.circuitOpenUntil with
    | none => 0
    | some u => max 0 (u - nowMs)
  else
    0

/-- CircuitBreaker.forceClose. -/
def forceClose (s : KeyState) : KeyState :=
  { s with
      circuitState := CircuitState.closed
      circuitOpenUntil := none
      consecutiveFailures := 0 }

/-- CircuitBreaker.forceOpen delegates to openCircuit. -/
def forceOpen (cfg : CircuitBreakerConfig) (nowMs : Int) (s : KeyState) :
    KeyState × Bool :=
  openCircuit cfg nowMs s

end CircuitBreaker

namespace QuotaTracker

/-- The period-rollover test of QuotaTracker.checkPeriodReset. -/
def shouldReset (q : QuotaConfig) (now start : Date) : Bool :=
  match q with
  | .monthly _ =>
      decide (start.utcYear < now.utcYear) ||
        (decide (now.utcYear = start.utcYear) && decide (start.utcMonth < now.utcMonth))
  | .yearly _ => decide (start.utcYear < now.utcYear)
  | .total _ => false
  | .unlimited => false

/-- QuotaTracker.reset: zero the counter, restart the period, drop the key
from the warned set.  First component is the updated warned set. -/
def reset (warned : List String) (s : KeyState) (now : Date) :
    List String × KeyState :=
  (warned.filter (fun k => k != s.config.id),
    { s with quotaUsed := 0, periodStart := now })

/-- QuotaTracker.checkPeriodReset. -/
def checkPeriodReset (warned : List String) (s : KeyState) (now : Date) :
    List String × KeyState :=
  if shouldReset s.config.quota now s.periodStart then
    reset warned s now
  else
    (warned, s)

/-- QuotaTracker.hasQuota. -/
def hasQuota (warned : List String) (s : KeyState) (now : Date) :
    Bool × List String × KeyState :=
  let (warned, s) := checkPeriodReset warned s now
  match s.config.quota.limit? with
  | none => (true, warned, s)
  | some l => (decide (s.quotaUsed < l), warned, s)

/-- QuotaTracker.getRemaining.  none encodes the JS Infinity returned for
unlimited quotas. -/
def getRemaining (warned : List String) (s : KeyState) (now : Date) :
    Option Int × List String × KeyState :=
  let (warned, s) := checkPeriodReset warned s now
  match s.config.quota.limit? with
  | none => (none, warned, s)
  | some l => (some (max 0 (l - s.quotaUsed)), warned, s)

/-- QuotaTracker.getUsagePercent. -/
def getUsagePercent (warned : List String) (s : KeyState) (now : Date) :
    ℚ × List String × KeyState :=
  match s.config.quota.limit? with
  | none => (0, warned, s)
  | some l =>
      let (warned, s) := checkPeriodReset warned s now
      ((s.quotaUsed : ℚ) / (l : ℚ), warned, s)

/-- Result of QuotaTracker.increment: updated warned set and state, plus
whether the onWarning and onKeyExhausted hooks fired. -/
structure IncrementResult where
  warned : List String
  state : KeyState
  warningFired : Bool
  exhaustedFired : Bool
deriving Repr, DecidableEq

/-- QuotaTracker.increment. -/
def increment (warningThreshold : ℚ) (warned : List String) (s : KeyState)
    (now : Date) (amount : Int) : IncrementResult :=
  let (warned, s) := checkPeriodReset warned s now
  match s.config.quota.limit? with
  | none => ⟨warned, s, false, false⟩
  | some l =>
      let s := { s with quotaUsed := s.quotaUsed + amount }
      let (pct, warned, s) := getUsagePercent warned s now
      let fireWarn := decide (warningThreshold ≤ pct) && !(warned.contains s.config.id)
      let warned := if fireWarn then s.config.id :: warned else warned
      let fireExhausted := decide (l ≤ s.quotaUsed)
      ⟨warned, s, fireWarn, fireExhausted⟩

/-- QuotaTracker.syncFromResponse. -/
def syncFromResponse (s : KeyState) (remaining : Int) : KeyState :=
  match s.config.quota.limit? with
  | none => s
  | some l =>
      let newUsed := l - remaining
      if s.quotaUsed < newUsed then
        { s with quotaUsed := newUsed }
      else
        s

end QuotaTracker

namespace RateLimiter

/-- RateLimiter.getAvailableTokens (pure).  none encodes the JS Infinity
returned when no rps is configured. -/
def getAvailableTokens (nowMs : Int) (s : KeyState) : Option ℚ :=
  match s.config.rps with
  | none => none
  | some r =>
      let elapsed : ℚ := ((nowMs - s.lastTokenRefill : Int) : ℚ) / 1000
      some (min r (s.tokens + elapsed * r))

/-- RateLimiter.hasCapacity. -/
def hasCapacity (nowMs : Int) (s : KeyState) : Bool :=
  match getAvailableTokens nowMs s with
  | none => true
  | some t => decide (1 ≤ t)

/-- RateLimiter.refillTokens. -/
def refillTokens (nowMs : Int) (s : KeyState) : KeyState :=
  match s.config.rps with
  | none => s
  | some r =>
      let elapsed : ℚ := ((nowMs - s.lastTokenRefill : Int) : ℚ) / 1000
      let tokensToAdd := elapsed * r
      { s with tokens := min r (s.tokens + tokensToAdd), lastTokenRefill := nowMs }

/-- RateLimiter.tryConsume. -/
def tryConsume (nowMs : Int) (s : KeyState) : Bool × KeyState :=
  match s.config.rps with
  | none => (true, s)
  | some _ =>
      let s := refillTokens nowMs s
      if 1 ≤ s.tokens then
        (true, { s with tokens := s.tokens - 1 })
      else
        (false, s)

/-- RateLimiter.getCurrentRps. -/
def getCurrentRps (nowMs : Int) (s : KeyState) : ℚ :=
  match s.config.rps with
  | none => 0
  | some r =>
      match getAvailableTokens nowMs s with
      | none => 0
      | some t => max 0 (r - t)

/-- RateLimiter.getTimeUntilAvailable. -/
def getTimeUntilAvailable (nowMs : Int) (s : KeyState) : Int :=
  match s.config.rps with
  | none => 0
  | some r =>
      match getAvailableTokens nowMs s with
      | none => 0
      | some t =>
          if 1 ≤ t then 0
          else Int.ceil ((1 - t) / r * 1000)

/-- RateLimiter.reset. -/
def reset (nowMs : Int) (s : KeyState) : KeyState :=
  match s.config.rps with
  | none => s
  | some r => { s with tokens := r, lastTokenRefill := nowMs }

end RateLimiter

/-- Errors surfaced by the queue and pool (errors.ts).  The generic
constructor stands for a plain JS Error with the given message. -/
inductive PoolError
  | generic (msg : String)
  | queueFull (queueSize maxQueueSize : ℕ) (retryAfterMs : ℕ)
  | queueTimeout (waitedMs : Int) (retryAfterMs : ℕ) (queueSize : ℕ)
deriving Repr, DecidableEq

/-- QueuedRequest from types.ts.  The caller-supplied execute function,
resolve and reject handles are abstracted into an opaque payload value of
type a; rejections are reported as (request, error) pairs. -/
structure QueuedRequest (a : Type) where
  payload : a
  queuedAt : Int
  maxWaitMs : Int
  retryCount : ℕ
deriving Repr, DecidableEq

namespace RequestQueue

/-- The private fields of RequestQueue that the enqueue / clear / shutdown
paths touch. -/
structure State (a : Type) where
  queue : List (QueuedRequest a)
  maxSize : ℕ
  defaultMaxWaitMs : Int
deriving Repr, DecidableEq

/-- RequestQueue.estimateRetryAfter. -/
def estimateRetryAfter (q : State a) : ℕ :=
  max 1000 (q.queue.length * 1000)

/-- RequestQueue.enqueue: reject with QueueFull when at capacity (the throw
happens before any mutation, so the returned state is the input state),
otherwise append the new request in FIFO position.  The ok payload is the
request record that was appended. -/
def enqueue (q : State a) (payload : a) (nowMs : Int) (maxWaitMs : Option Int) :
    Except PoolError (QueuedRequest a) × State a :=
  if q.maxSize ≤ q.queue.length then
    (Except.error (PoolError.queueFull q.queue.length q.maxSize (estimateRetryAfter q)), q)
  else
    let request : QueuedRequest a :=
      { payload := payload
        queuedAt := nowMs
        maxWaitMs := maxWaitMs.getD q.defaultMaxWaitMs
        retryCount := 0 }
    (Except.ok request, { q with queue := q.queue ++ [request] })

/-- RequestQueue.clear: reject every pending request with the given error and
empty the queue.  First component: the rejections issued. -/
def clear (q : State a) (err : PoolError) :
    List (QueuedRequest a × PoolError) × State a :=
  (q.queue.map (fun r => (r, err)), { q with queue := [] })

/-- KeyPool.shutdown: clears the queue with the shutdown error.  The pool
keeps no shutdown flag and its execute path does not consult one. -/
def shutdown (q : State a) : List (QueuedRequest a × PoolError) × State a :=
  clear q (PoolError.generic "Pool is shutting down")

end RequestQueue

namespace KeyPool

/-- The find-by-id step shared by the pool operator controls: the index of
the first state whose config.id matches (states.find / states.findIndex on
config.id). -/
def findKeyIdx? (states : List KeyState) (keyId : String) : Option ℕ :=
  match states with
  | [] => none
  | s :: rest =>
      if s.config.id = keyId then some 0
      else (findKeyIdx? rest keyId).map (· + 1)

/-- Replace the element at an index (models mutating the found state object
in place). -/
def updateAt : List KeyState → ℕ → (KeyState → KeyState) → List KeyState
  | [], _, _ => []
  | s :: rest, 0, f => f s :: rest
  | s :: rest, n + 1, f => s :: updateAt rest n f

/-- KeyPool.removeKey. -/
def removeKey (states : List KeyState) (keyId : String) :
    Bool × List KeyState :=
  match findKeyIdx? states keyId with
  | none => (false, states)
  | some i => (true, states.eraseIdx i)

/-- KeyPool.closeCircuit. -/
def closeCircuit (states : List KeyState) (keyId : String) :
    Bool × List KeyState :=
  match findKeyIdx? states keyId with
  | none => (false, states)
  | some i => (true, updateAt states i CircuitBreaker.forceClose)

/-- KeyPool.openCircuit. -/
def openCircuit (cfg : CircuitBreakerConfig) (nowMs : Int)
    (states : List KeyState) (keyId : String) : Bool × List KeyState :=
  match findKeyIdx? states keyId with
  | none => (false, states)
  | some i => (true, updateAt states i (fun s => (CircuitBreaker.forceOpen cfg nowMs s).1))

/-- KeyPool.resetQuota.  Also updates the tracker's warned set. -/
def resetQuota (warned : List String) (states : List KeyState) (keyId : String)
    (now : Date) : Bool × List String × List KeyState :=
  match findKeyIdx? states keyId with
  | none => (false, warned, states)
  | some i =>
      match states.get? i with
      | none => (false, warned, states)
      | some s =>
          let (warned, s') := QuotaTracker.reset warned s now
          (true, warned, updateAt states i (fun _ => s'))

end KeyPool

namespace KeySelector

/-- KeySelector.isKeyAvailable: circuit, quota, token bucket, then temporary
rate-limit window, with the early returns of the source.  The circuit and
quota checks may mutate the state (lazy transition, period rollover) and the
warned set. -/
def isKeyAvailable (warned : List String) (s : KeyState) (now : Date) :
    Bool × List String × KeyState :=
  let (cbAvail, s) := CircuitBreaker.isAvailable now.ms s
  if !cbAvail then (false, warned, s)
  else
    let (q, warned, s) := QuotaTracker.hasQuota warned s now
    if !q then (false, warned, s)
    else if !RateLimiter.hasCapacity now.ms s then (false, warned, s)
    else
      match s.rateLimitedUntil with
      | some u => (!decide (now.ms < u), warned, s)
      | none => (true, warned, s)

/-- KeySelector.buildWeightedList, with list positions standing for the
shared KeyState references: position j of the states array appears
weight-many times, in registration order. -/
def buildWeightedListAux : List KeyState → ℕ → List ℕ
  | [], _ => []
  | s :: rest, j =>
      List.replicate (s.config.weight.getD 1) j ++ buildWeightedListAux rest (j + 1)

/-- The weighted index list over a whole states array. -/
def buildWeightedList (states : List KeyState) : List ℕ :=
  buildWeightedListAux states 0

/-- Result of KeySelector.selectKey: index (into the states array) of the
chosen key, the possibly mutated states array and warned set, and the new
cursor. -/
structure SelectResult where
  chosen : Option ℕ
  states : List KeyState
  warned : List String
  cursor : ℕ
deriving Repr, DecidableEq

/-- The scan loop of KeySelector.selectKey: up to one full revolution over
the weighted list starting at the cursor position, skipping excluded ids,
returning the first available key and advancing the cursor just past it.
fuel counts the remaining iterations, i the current loop counter. -/
def selectLoop (now : Date) (weighted : List ℕ) (exclude : List String)
    (len start cursor0 : ℕ) :
    ℕ → ℕ → List KeyState → List String → SelectResult
  | 0, _, states, warned => ⟨none, states, warned, cursor0⟩
  | fuel + 1, i, states, warned =>
      let index := (start + i) % len
      match states.get? (weighted.getD index 0) with
      | none => selectLoop now weighted exclude len start cursor0 fuel (i + 1) states warned
      | some s =>
          if exclude.contains s.config.id then
            selectLoop now weighted exclude len start cursor0 fuel (i + 1) states warned
          else
            let (avail, warned', s') := isKeyAvailable warned s now
            let states' := states.set (weighted.getD index 0) s'
            if avail then
              ⟨some (weighted.getD index 0), states', warned', index + 1⟩
            else
              selectLoop now weighted exclude len start cursor0 fuel (i + 1) states' warned'

/-- KeySelector.selectKey. -/
def selectKey (now : Date) (states : List KeyState) (warned : List String)
    (exclude : List String) (cursor : ℕ) : SelectResult :=
  if states.length = 0 then ⟨none, states, warned, cursor⟩
  else
    let weighted := buildWeightedList states
    if weighted.length = 0 then ⟨none, states, warned, cursor⟩
    else
      let len := weighted.length
      let start := cursor % len
      selectLoop now weighted exclude len start cursor len 0 states warned

/-- N consecutive selections with no exclusions (the E8 / fairness
experiment): collect the chosen indices, threading states, warned set and
cursor; stop if selection ever fails. -/
def selectN (now : Date) :
    ℕ → List KeyState → List String → ℕ → List ℕ
  | 0, _, _, _ => []
  | n + 1, states, warned, cursor =>
      let r := selectKey now states warned [] cursor
      match r.chosen with
      | none => []
      | some si => si :: selectN now n r.states r.warned r.cursor

end KeySelector

/-- KeyStats from types.ts; quotaRemaining none encodes Infinity. -/
structure KeyStats where
  id : String
  quotaUsed : Int
  quotaRemaining : Option Int
  isRateLimited : Bool
  isCircuitOpen : Bool
  isExhausted : Bool
  currentRps : ℚ
  rpsLimit : Option ℚ
  consecutiveFailures : ℕ
deriving Repr, DecidableEq

/-- buildKeyStats from pool.ts.  The JS object literal evaluates its fields
top to bottom; getRemaining, getState and hasQuota mutate the shared state in
that order, which the explicit threading reproduces. -/
def buildKeyStats (warned : List String) (s : KeyState) (now : Date) :
    KeyStats × List String × KeyState :=
  let id := s.config.id
  let used := s.quotaUsed
  let (rem, warned, s) := QuotaTracker.getRemaining warned s now
  let isRL := !RateLimiter.hasCapacity now.ms s ||
    (match s.rateLimitedUntil with
      | some u => decide (now.ms < u)
      | none => false)
  let (cs, s) := CircuitBreaker.getState now.ms s
  let (hq, warned, s) := QuotaTracker.hasQuota warned s now
  let curRps := RateLimiter.getCurrentRps now.ms s
  (⟨id, used, rem, isRL, decide (cs = CircuitState.open'), !hq, curRps,
      s.config.rps, s.consecutiveFailures⟩,
    warned, s)

/-- createKeyState from pool.ts. -/
def createKeyState (key : KeyConfig) (now : Date) : KeyState :=
  { config := key
    quotaUsed := 0
    periodStart := now
    rateLimitedUntil := none
    circuitState := CircuitState.closed
    circuitOpenUntil := none
    consecutiveFailures := 0
    lastUsed := none
    tokens := key.rps.getD 0
    lastTokenRefill := now.ms }

/-! Concrete fixtures used by witnesses and counterexamples. -/

/-- Default circuit breaker configuration from pool.ts. -/
def cfgCB : CircuitBreakerConfig := ⟨5, 60000⟩

/-- A sample instant. -/
def date0 : Date := ⟨0, 2026, 0⟩

/-- An unlimited-quota key config without rps. -/
def keyU (id : String) (w : Option ℕ) : KeyConfig :=
  ⟨id, "secret-" ++ id, QuotaConfig.unlimited, none, w⟩

/-- A total-quota key config with the given limit. -/
def keyT (id : String) (limit : Int) : KeyConfig :=
  ⟨id, "secret-" ++ id, QuotaConfig.total limit, none, none⟩

/-! # Claims -/

/-- C4 counterexample: on an already-open circuit whose failure counter is at
the threshold, recordFailure re-runs openCircuit and refreshes
circuitOpenUntil to now + resetTimeoutMs, so circuitOpenUntil does not stay
unchanged (here it moves from 5000 to 70000); the circuit stays open, the
counter goes up by one, and the hook does not fire. -/
theorem recordFailure_open_refreshes_openUntil_cex :
    (let s : KeyState :=
      { createKeyState (keyU "k" none) date0 with
          circuitState := CircuitState.open'
          circuitOpenUntil := some 5000
          consecutiveFailures := 5 }
    s.circuitState = CircuitState.open' ∧
    s.circuitOpenUntil = some 5000 ∧
    (CircuitBreaker.recordFailure cfgCB 10000 s).1.circuitState = CircuitState.open' ∧
    (CircuitBreaker.recordFailure cfgCB 10000 s).1.consecutiveFailures = 6 ∧
    (CircuitBreaker.recordFailure cfgCB 10000 s).2 = false ∧
    (CircuitBreaker.recordFailure cfgCB 10000 s).1.circuitOpenUntil = some 70000 ∧
    (CircuitBreaker.recordFailure cfgCB 10000 s).1.circuitOpenUntil ≠ s.circuitOpenUntil) := by
  decide

/-- C4 (amended): for a key whose circuit is open, recordFailure leaves it
open, increments the failure counter by 1 and fires no hook; circuitOpenUntil
is refreshed to now + resetTimeoutMs when the incremented counter reaches
failureThreshold, and is unchanged otherwise. -/
theorem recordFailure_open_characterization (cfg : CircuitBreakerConfig)
    (nowMs : Int) (s : KeyState) (h : s.circuitState = CircuitState.open') :
    (CircuitBreaker.recordFailure cfg nowMs s).1.circuitState = CircuitState.open' ∧
    (CircuitBreaker.recordFailure cfg nowMs s).1.consecutiveFailures
      = s.consecutiveFailures + 1 ∧
    (CircuitBreaker.recordFailure cfg nowMs s).2 = false ∧
    (CircuitBreaker.recordFailure cfg nowMs s).1.circuitOpenUntil
      = (if cfg.failureThreshold ≤ s.consecutiveFailures + 1 then
          some (nowMs + cfg.resetTimeoutMs)
        else
          s.circuitOpenUntil) := by
  unfold CircuitBreaker.recordFailure CircuitBreaker.openCircuit
  by_cases hth : cfg.failureThreshold ≤ s.consecutiveFailures + 1 <;>
    simp [hth, h]

/-- C4 witness: the characterization applied to a concrete open state with a
below-threshold counter, where circuitOpenUntil indeed stays put. -/
theorem recordFailure_open_characterization_witness :
    (CircuitBreaker.recordFailure cfgCB 10000
        { createKeyState (keyU "k" none) date0 with
            circuitState := CircuitState.open'
            circuitOpenUntil := some 5000
            consecutiveFailures := 1 }).1.circuitState = CircuitState.open' ∧
    (CircuitBreaker.recordFailure cfgCB 10000
        { createKeyState (keyU "k" none) date0 with
            circuitState := CircuitState.open'
            circuitOpenUntil := some 5000
            consecutiveFailures := 1 }).1.consecutiveFailures = 1 + 1 ∧
    (CircuitBreaker.recordFailure cfgCB 10000
        { createKeyState (keyU "k" none) date0 with
            circuitState := CircuitState.open'
            circuitOpenUntil := some 5000
            consecutiveFailures := 1 }).2 = false := by
  have h := recordFailure_open_characterization cfgCB 10000
    { createKeyState (keyU "k" none) date0 with
        circuitState := CircuitState.open'
        circuitOpenUntil := some 5000
        consecutiveFailures := 1 } (by decide)
  exact ⟨h.1, h.2.1, h.2.2.1⟩

/-- C1 counterexample: forceOpen on a fresh key (failure counter 0) followed
by lazy expiry of the reset timer yields a half-open circuit; recordFailure
there leaves the circuit half-open with no circuitOpenUntil and fires no
hook, because the incremented counter (1) is below the failure threshold (5).
The claim says this recordFailure must transition to open and fire the hook. -/
theorem halfOpen_failure_not_always_open_cex :
    (let s1 := (CircuitBreaker.forceOpen cfgCB 0 (createKeyState (keyU "k" none) date0)).1
    let s2 := CircuitBreaker.checkTransition 60000 s1
    s2.circuitState = CircuitState.halfOpen ∧
    s2.consecutiveFailures = 0 ∧
    (CircuitBreaker.recordFailure cfgCB 70000 s2).1.circuitState = CircuitState.halfOpen ∧
    (CircuitBreaker.recordFailure cfgCB 70000 s2).1.circuitOpenUntil = none ∧
    (CircuitBreaker.recordFailure cfgCB 70000 s2).2 = false) := by
  decide

/-- C1 (amended): for a key whose circuit is half-open, recordFailure
transitions the circuit to open, sets circuitOpenUntil and fires the
onKeyCircuitOpen hook exactly when the incremented failure counter reaches
failureThreshold (which is always the case for half-open states reached by a
threshold-crossing open, since the counter is not reset on the open to
half-open transition); when the incremented counter is still below the
threshold — reachable via forceOpen followed by lazy expiry — the circuit
stays half-open, circuitOpenUntil stays unset and no hook fires. -/
theorem recordFailure_halfOpen_characterization (cfg : CircuitBreakerConfig)
    (nowMs : Int) (s : KeyState) (h : s.circuitState = CircuitState.halfOpen) :
    (cfg.failureThreshold ≤ s.consecutiveFailures + 1 →
      (CircuitBreaker.recordFailure cfg nowMs s).1.circuitState = CircuitState.open' ∧
      (CircuitBreaker.recordFailure cfg nowMs s).1.circuitOpenUntil
        = some (nowMs + cfg.resetTimeoutMs) ∧
      (CircuitBreaker.recordFailure cfg nowMs s).2 = true) ∧
    (s.consecutiveFailures + 1 < cfg.failureThreshold →
      (CircuitBreaker.recordFailure cfg nowMs s).1.circuitState = CircuitState.halfOpen ∧
      (CircuitBreaker.recordFailure cfg nowMs s).1.circuitOpenUntil = s.circuitOpenUntil ∧
      (CircuitBreaker.recordFailure cfg nowMs s).2 = false) := by
  unfold CircuitBreaker.recordFailure CircuitBreaker.openCircuit
  constructor
  · intro hth
    simp [hth, h]
  · intro hth
    have hth' : ¬ cfg.failureThreshold ≤ s.consecutiveFailures + 1 := by omega
    simp [hth', h]

/-- C1 witness: a half-open state with counter 4 and threshold 5 (the shape
produced by a threshold-crossing open followed by timer expiry, where the
counter is at least threshold minus one); one more failure opens the circuit,
stamps circuitOpenUntil and fires the hook. -/
theorem recordFailure_halfOpen_characterization_witness :
    (CircuitBreaker.recordFailure cfgCB 70000
        { createKeyState (keyU "k" none) date0 with
            circuitState := CircuitState.halfOpen
            consecutiveFailures := 4 }).1.circuitState = CircuitState.open' ∧
    (CircuitBreaker.recordFailure cfgCB 70000
        { createKeyState (keyU "k" none) date0 with
            circuitState := CircuitState.halfOpen
            consecutiveFailures := 4 }).1.circuitOpenUntil = some (70000 + 60000) ∧
    (CircuitBreaker.recordFailure cfgCB 70000
        { createKeyState (keyU "k" none) date0 with
            circuitState := CircuitState.halfOpen
            consecutiveFailures := 4 }).2 = true := by
  have h := recordFailure_halfOpen_characterization cfgCB 70000
    { createKeyState (keyU "k" none) date0 with
        circuitState := CircuitState.halfOpen
        consecutiveFailures := 4 } (by decide)
  exact h.1 (by decide)

/-- C5: for a bounded-quota key, syncFromResponse(r) leaves quotaUsed
unchanged when limit - r is at most quotaUsed and otherwise sets it to
limit - r; quotaUsed never decreases. -/
theorem syncFromResponse_never_rewinds (s : KeyState) (l r : Int)
    (hq : s.config.quota.limit? = some l) :
    (QuotaTracker.syncFromResponse s r).quotaUsed
      = (if l - r ≤ s.quotaUsed then s.quotaUsed else l - r) ∧
    s.quotaUsed ≤ (QuotaTracker.syncFromResponse s r).quotaUsed := by
  unfold QuotaTracker.syncFromResponse
  rw [hq]
  by_cases hc : s.quotaUsed < l - r
  · have : ¬ l - r ≤ s.quotaUsed := by omega
    simp [hc, this]
    omega
  · have : l - r ≤ s.quotaUsed := by omega
    simp [hc, this]

/-- C5 witness: limit 100, local quotaUsed 40, server reports 50 remaining,
so sync raises quotaUsed to 50. -/
theorem syncFromResponse_never_rewinds_witness :
    (QuotaTracker.syncFromResponse
        { createKeyState (keyT "k" 100) date0 with quotaUsed := 40 } 50).quotaUsed
      = (if (100 : Int) - 50 ≤ 40 then (40 : Int) else 100 - 50) ∧
    (40 : Int) ≤ (QuotaTracker.syncFromResponse
        { createKeyState (keyT "k" 100) date0 with quotaUsed := 40 } 50).quotaUsed :=
  syncFromResponse_never_rewinds
    { createKeyState (keyT "k" 100) date0 with quotaUsed := 40 } 100 50 (by decide)

/-- C8: enqueue on a queue whose size equals the maximum fails immediately
with QueueFull carrying queueSize = M, maxQueueSize = M and
retryAfterMs = max 1000 (size * 1000), and the queue state is unchanged. -/
theorem enqueue_full_queue_rejects {a : Type} (q : RequestQueue.State a)
    (p : a) (nowMs : Int) (mw : Option Int) (h : q.queue.length = q.maxSize) :
    RequestQueue.enqueue q p nowMs mw
      = (Except.error (PoolError.queueFull q.maxSize q.maxSize
          (max 1000 (q.maxSize * 1000))), q) := by
  unfold RequestQueue.enqueue RequestQueue.estimateRetryAfter
  simp [h]

/-- C8 witness: a queue of two requests with maximum two rejects a third,
reporting sizes 2 and retryAfterMs 2000. -/
theorem enqueue_full_queue_rejects_witness :
    RequestQueue.enqueue
        (⟨[⟨7, 0, 30000, 0⟩, ⟨8, 10, 30000, 0⟩], 2, 30000⟩ : RequestQueue.State ℕ)
        9 100 none
      = (Except.error (PoolError.queueFull 2 2 (max 1000 (2 * 1000))),
          ⟨[⟨7, 0, 30000, 0⟩, ⟨8, 10, 30000, 0⟩], 2, 30000⟩) :=
  enqueue_full_queue_rejects
    (⟨[⟨7, 0, 30000, 0⟩, ⟨8, 10, 30000, 0⟩], 2, 30000⟩ : RequestQueue.State ℕ)
    9 100 none (by decide)

/-- C2 counterexample: a pool with one pending request is shut down; the
pending request is rejected with the shutdown error, but a subsequent
enqueue (the execute path) on the very same queue is accepted and appended —
it is dispatched, not refused, because the code keeps no shutdown flag. -/
theorem shutdown_does_not_refuse_execute_cex :
    (RequestQueue.shutdown (⟨[⟨7, 0, 30000, 0⟩], 2, 30000⟩ : RequestQueue.State ℕ)).1
      = [(⟨7, 0, 30000, 0⟩, PoolError.generic "Pool is shutting down")] ∧
    (RequestQueue.shutdown (⟨[⟨7, 0, 30000, 0⟩], 2, 30000⟩ : RequestQueue.State ℕ)).2.queue = [] ∧
    (RequestQueue.enqueue
        (RequestQueue.shutdown (⟨[⟨7, 0, 30000, 0⟩], 2, 30000⟩ : RequestQueue.State ℕ)).2
        8 100 none).1
      = Except.ok ⟨8, 100, 30000, 0⟩ ∧
    (RequestQueue.enqueue
        (RequestQueue.shutdown (⟨[⟨7, 0, 30000, 0⟩], 2, 30000⟩ : RequestQueue.State ℕ)).2
        8 100 none).2.queue
      = [⟨8, 100, 30000, 0⟩] :=
  ⟨rfl, rfl, rfl, rfl⟩

/-- C2 (amended): shutdown rejects every pending request with the shutdown
error and empties the queue, but further execute calls are not refused: an
enqueue after shutdown (queue now empty, capacity positive) is accepted and
appended for dispatch. -/
theorem shutdown_rejects_pending_enqueue_still_accepted {a : Type}
    (q : RequestQueue.State a) (p : a) (nowMs : Int) (hmax : 0 < q.maxSize) :
    (RequestQueue.shutdown q).1
      = q.queue.map (fun r => (r, PoolError.generic "Pool is shutting down")) ∧
    (RequestQueue.shutdown q).2.queue = [] ∧
    (RequestQueue.enqueue (RequestQueue.shutdown q).2 p nowMs none).1
      = Except.ok ⟨p, nowMs, q.defaultMaxWaitMs, 0⟩ ∧
    (RequestQueue.enqueue (RequestQueue.shutdown q).2 p nowMs none).2.queue
      = [⟨p, nowMs, q.defaultMaxWaitMs, 0⟩] := by
  refine ⟨rfl, rfl, ?_, ?_⟩ <;>
    simp [RequestQueue.enqueue, RequestQueue.shutdown, RequestQueue.clear,
      Nat.not_le.mpr hmax]

/-- C2 witness: the amended statement at a concrete one-element queue. -/
theorem shutdown_rejects_pending_enqueue_still_accepted_witness :
    (RequestQueue.shutdown (⟨[⟨7, 0, 30000, 0⟩], 2, 30000⟩ : RequestQueue.State ℕ)).1
      = [⟨7, 0, 30000, 0⟩].map (fun r => (r, PoolError.generic "Pool is shutting down")) ∧
    (RequestQueue.shutdown (⟨[⟨7, 0, 30000, 0⟩], 2, 30000⟩ : RequestQueue.State ℕ)).2.queue = [] ∧
    (RequestQueue.enqueue
        (RequestQueue.shutdown (⟨[⟨7, 0, 30000, 0⟩], 2, 30000⟩ : RequestQueue.State ℕ)).2
        8 100 none).1 = Except.ok ⟨8, 100, 30000, 0⟩ ∧
    (RequestQueue.enqueue
        (RequestQueue.shutdown (⟨[⟨7, 0, 30000, 0⟩], 2, 30000⟩ : RequestQueue.State ℕ)).2
        8 100 none).2.queue = [⟨8, 100, 30000, 0⟩] :=
  shutdown_rejects_pending_enqueue_still_accepted
    (⟨[⟨7, 0, 30000, 0⟩], 2, 30000⟩ : RequestQueue.State ℕ) 8 100 (by decide)

/-- Auxiliary: when no key matches, the find-by-id step yields none. -/
theorem findKeyIdx?_eq_none (states : List KeyState) (keyId : String)
    (h : ∀ s ∈ states, s.config.id ≠ keyId) :
    KeyPool.findKeyIdx? states keyId = none := by
  induction states with
  | nil => rfl
  | cons s rest ih =>
      unfold KeyPool.findKeyIdx?
      rw [if_neg (h s (List.mem_cons_self s rest))]
      rw [ih (fun t ht => h t (List.mem_cons_of_mem s ht))]
      rfl

/-- C9: for a keyId matching no key in the pool, removeKey, closeCircuit,
openCircuit and resetQuota return false and leave the key list (and the
tracker's warned set) unchanged. -/
theorem operator_controls_unknown_key_noop (cfg : CircuitBreakerConfig)
    (nowMs : Int) (warned : List String) (states : List KeyState)
    (keyId : String) (now : Date) (h : ∀ s ∈ states, s.config.id ≠ keyId) :
    KeyPool.removeKey states keyId = (false, states) ∧
    KeyPool.closeCircuit states keyId = (false, states) ∧
    KeyPool.openCircuit cfg nowMs states keyId = (false, states) ∧
    KeyPool.resetQuota warned states keyId now = (false, warned, states) := by
  have hf := findKeyIdx?_eq_none states keyId h
  refine ⟨?_, ?_, ?_, ?_⟩ <;>
    simp [KeyPool.removeKey, KeyPool.closeCircuit, KeyPool.openCircuit,
      KeyPool.resetQuota, hf]

/-- C9 witness: the no-op result on a concrete two-key pool and an id that
belongs to neither. -/
theorem operator_controls_unknown_key_noop_witness :
    KeyPool.removeKey
        [createKeyState (keyU "k1" none) date0, createKeyState (keyT "k2" 10) date0]
        "nope"
      = (false, [createKeyState (keyU "k1" none) date0,
          createKeyState (keyT "k2" 10) date0]) ∧
    KeyPool.closeCircuit
        [createKeyState (keyU "k1" none) date0, createKeyState (keyT "k2" 10) date0]
        "nope"
      = (false, [createKeyState (keyU "k1" none) date0,
          createKeyState (keyT "k2" 10) date0]) ∧
    KeyPool.openCircuit cfgCB 0
        [createKeyState (keyU "k1" none) date0, createKeyState (keyT "k2" 10) date0]
        "nope"
      = (false, [createKeyState (keyU "k1" none) date0,
          createKeyState (keyT "k2" 10) date0]) ∧
    KeyPool.resetQuota ["k1"]
        [createKeyState (keyU "k1" none) date0, createKeyState (keyT "k2" 10) date0]
        "nope" date0
      = (false, ["k1"], [createKeyState (keyU "k1" none) date0,
          createKeyState (keyT "k2" 10) date0]) := by
  have h := operator_controls_unknown_key_noop cfgCB 0 ["k1"]
    [createKeyState (keyU "k1" none) date0, createKeyState (keyT "k2" 10) date0]
    "nope" date0 (by decide)
  exact h

/-- C3 counterexample: a key with total quota limit 1 whose quotaUsed is
already 1 (at the limit, same period since a total quota never rolls over);
a further increment fires onKeyExhausted again, although the claim says an
increment on a key already at or above the limit must not fire it. -/
theorem onKeyExhausted_refires_at_limit_cex :
    (1 : Int) ≤ ({ createKeyState (keyT "q" 1) date0 with quotaUsed := 1 } : KeyState).quotaUsed ∧
    (QuotaTracker.increment (4 / 5) []
        { createKeyState (keyT "q" 1) date0 with quotaUsed := 1 } date0 1).exhaustedFired
      = true := by
  constructor
  · decide
  · rfl

/-- C3 (amended): for a bounded-quota key in a period that does not roll over
at the call, increment fires onKeyExhausted exactly when the post-increment
quotaUsed is at or above the limit — so it fires on the increment that first
reaches the limit, but also fires again on every later increment made while
quotaUsed is still at or above the limit. -/
theorem increment_exhausted_iff_at_or_above_limit (th : ℚ)
    (warned : List String) (s : KeyState) (now : Date) (n l : Int)
    (hq : s.config.quota.limit? = some l)
    (hr : QuotaTracker.shouldReset s.config.quota now s.periodStart = false) :
    (QuotaTracker.increment th warned s now n).exhaustedFired = true
      ↔ l ≤ s.quotaUsed + n := by
  unfold QuotaTracker.increment QuotaTracker.getUsagePercent
    QuotaTracker.checkPeriodReset
  simp [hr, hq]

/-- C3 witness: limit 5, quotaUsed 4, increment by 1 — the crossing increment
does fire the exhaustion hook. -/
theorem increment_exhausted_iff_at_or_above_limit_witness :
    (QuotaTracker.increment (4 / 5) []
        { createKeyState (keyT "q" 5) date0 with quotaUsed := 4 } date0 1).exhaustedFired
      = true :=
  (increment_exhausted_iff_at_or_above_limit (4 / 5) []
      { createKeyState (keyT "q" 5) date0 with quotaUsed := 4 } date0 1 5
      (by decide) (by decide)).mpr (by decide)

/-- C10: the reported remaining quota is never negative — for any state,
a bounded getRemaining result is nonnegative; for a bounded key whose period
does not roll over at the call, the result is exactly max 0 (limit −
quotaUsed), hence 0 whenever quotaUsed is at or above the limit; and
buildKeyStats surfaces precisely the getRemaining value as quotaRemaining. -/
theorem getRemaining_clamped_nonneg (warned : List String) (s : KeyState)
    (now : Date) (l : Int) (hq : s.config.quota.limit? = some l)
    (hr : QuotaTracker.shouldReset s.config.quota now s.periodStart = false) :
    (∀ (w : List String) (t : KeyState) (d : Date) (v : Int),
        (QuotaTracker.getRemaining w t d).1 = some v → 0 ≤ v) ∧
    (QuotaTracker.getRemaining warned s now).1 = some (max 0 (l - s.quotaUsed)) ∧
    (l ≤ s.quotaUsed → (QuotaTracker.getRemaining warned s now).1 = some 0) ∧
    (buildKeyStats warned s now).1.quotaRemaining
      = (QuotaTracker.getRemaining warned s now).1 := by
  have hrem : (QuotaTracker.getRemaining warned s now).1
      = some (max 0 (l - s.quotaUsed)) := by
    unfold QuotaTracker.getRemaining QuotaTracker.checkPeriodReset
    simp [hr, hq]
  refine ⟨?_, hrem, ?_, ?_⟩
  · intro w t d v hv
    unfold QuotaTracker.getRemaining at hv
    rcases hc : QuotaTracker.checkPeriodReset w t d with ⟨w', t'⟩
    rw [hc] at hv
    cases hl : t'.config.quota.limit? with
    | none => simp [hl] at hv
    | some m =>
        simp [hl] at hv
        omega
  · intro hle
    rw [hrem]
    have : max 0 (l - s.quotaUsed) = 0 := by omega
    rw [this]
  · unfold buildKeyStats
    rcases hg : QuotaTracker.getRemaining warned s now with ⟨rem, w1, s1⟩
    rcases hs : CircuitBreaker.getState now.ms s1 with ⟨cs, s2⟩
    rcases hh : QuotaTracker.hasQuota w1 s2 now with ⟨hqv, w2, s3⟩
    simp [hg, hs, hh]

/-- C10 witness: total quota limit 3 with quotaUsed 5 (as after an
authoritative sync past the limit) reports remaining 0, not −2. -/
theorem getRemaining_clamped_nonneg_witness :
    (QuotaTracker.getRemaining []
        { createKeyState (keyT "k" 3) date0 with quotaUsed := 5 } date0).1
      = some 0 := by
  have h := getRemaining_clamped_nonneg []
    { createKeyState (keyT "k" 3) date0 with quotaUsed := 5 } date0 3
    (by decide) (by decide)
  exact h.2.2.1 (by decide)

/-- C6: token bucket bounds and refill amount.  For a key with configured
rate r, a refill after elapsed time Δ = (now − lastRefill)/1000 seconds adds
exactly min (r − tokens) (Δ·r); starting from 0 ≤ tokens ≤ r, the bounds
0 ≤ tokens ≤ r still hold after refillTokens, tryConsume and reset. -/
theorem tokenBucket_bounds_and_refill (s : KeyState) (nowMs : Int) (r : ℚ)
    (hr : s.config.rps = some r) (hpos : 0 < r)
    (hlb : 0 ≤ s.tokens) (hub : s.tokens ≤ r)
    (hnow : s.lastTokenRefill ≤ nowMs) :
    (RateLimiter.refillTokens nowMs s).tokens
      = s.tokens + min (r - s.tokens) (((nowMs - s.lastTokenRefill : Int) : ℚ) / 1000 * r) ∧
    (0 ≤ (RateLimiter.refillTokens nowMs s).tokens ∧
      (RateLimiter.refillTokens nowMs s).tokens ≤ r) ∧
    (0 ≤ (RateLimiter.tryConsume nowMs s).2.tokens ∧
      (RateLimiter.tryConsume nowMs s).2.tokens ≤ r) ∧
    (RateLimiter.reset nowMs s).tokens = r := by
  have hdelta : (0 : ℚ) ≤ ((nowMs - s.lastTokenRefill : Int) : ℚ) / 1000 := by
    apply div_nonneg _ (by norm_num)
    exact_mod_cast Int.sub_nonneg.mpr hnow
  have hadd : (0 : ℚ) ≤ ((nowMs - s.lastTokenRefill : Int) : ℚ) / 1000 * r :=
    mul_nonneg hdelta hpos.le
  have hrefill : (RateLimiter.refillTokens nowMs s).tokens
      = min r (s.tokens + ((nowMs - s.lastTokenRefill : Int) : ℚ) / 1000 * r) := by
    unfold RateLimiter.refillTokens
    rw [hr]
  have heq : min r (s.tokens + ((nowMs - s.lastTokenRefill : Int) : ℚ) / 1000 * r)
      = s.tokens + min (r - s.tokens)
          (((nowMs - s.lastTokenRefill : Int) : ℚ) / 1000 * r) := by
    rw [← min_add_add_left]
    congr 1
    ring
  have hb0 : 0 ≤ min r (s.tokens + ((nowMs - s.lastTokenRefill : Int) : ℚ) / 1000 * r) :=
    le_min hpos.le (by linarith)
  have hb1 : min r (s.tokens + ((nowMs - s.lastTokenRefill : Int) : ℚ) / 1000 * r) ≤ r :=
    min_le_left _ _
  refine ⟨by rw [hrefill, heq], ⟨by rw [hrefill]; exact hb0, by rw [hrefill]; exact hb1⟩,
    ?_, ?_⟩
  · unfold RateLimiter.tryConsume
    rw [hr]
    simp only
    by_cases hc : 1 ≤ (RateLimiter.refillTokens nowMs s).tokens
    · rw [if_pos hc]
      constructor
      · simp only
        linarith
      · simp only
        have := hrefill ▸ hb1
        linarith
    · rw [if_neg hc]
      exact ⟨hrefill ▸ hb0, hrefill ▸ hb1⟩
  · unfold RateLimiter.reset
    rw [hr]

/-- C6 witness: rate 2, tokens 1, refill 250 ms later adds exactly
min (2 − 1) (0.25·2) = 1/2 and all bounds hold. -/
theorem tokenBucket_bounds_and_refill_witness :
    (RateLimiter.refillTokens 250
        { createKeyState (⟨"k", "secret-k", QuotaConfig.unlimited, some 2, none⟩) date0 with
            tokens := 1 }).tokens
      = 1 + min ((2 : ℚ) - 1) (((250 - 0 : Int) : ℚ) / 1000 * 2) ∧
    (0 ≤ (RateLimiter.refillTokens 250
        { createKeyState (⟨"k", "secret-k", QuotaConfig.unlimited, some 2, none⟩) date0 with
            tokens := 1 }).tokens ∧
      (RateLimiter.refillTokens 250
        { createKeyState (⟨"k", "secret-k", QuotaConfig.unlimited, some 2, none⟩) date0 with
            tokens := 1 }).tokens ≤ 2) ∧
    (0 ≤ (RateLimiter.tryConsume 250
        { createKeyState (⟨"k", "secret-k", QuotaConfig.unlimited, some 2, none⟩) date0 with
            tokens := 1 }).2.tokens ∧
      (RateLimiter.tryConsume 250
        { createKeyState (⟨"k", "secret-k", QuotaConfig.unlimited, some 2, none⟩) date0 with
            tokens := 1 }).2.tokens ≤ 2) ∧
    (RateLimiter.reset 250
        { createKeyState (⟨"k", "secret-k", QuotaConfig.unlimited, some 2, none⟩) date0 with
            tokens := 1 }).tokens = 2 :=
  tokenBucket_bounds_and_refill
    { createKeyState (⟨"k", "secret-k", QuotaConfig.unlimited, some 2, none⟩) date0 with
        tokens := 1 }
    250 2 (by decide) (by norm_num) (by norm_num) (by norm_num) (by decide)

/-! Supporting lemmas for the weighted round-robin fairness claim. -/

/-- Writing back the element already at an index is a no-op. -/
theorem set_get_eq {α : Type} (l : List α) (i : ℕ) (h : i < l.length) :
    l.set i l[i] = l := by
  apply List.ext_getElem
  · simp
  · intro j h1 h2
    rw [List.getElem_set]
    split <;> simp_all

/-- Entries of the weighted index list lie in [off, off + number of keys). -/
theorem mem_buildWeightedListAux {x : ℕ} :
    ∀ (l : List KeyState) (off : ℕ), x ∈ KeySelector.buildWeightedListAux l off →
      off ≤ x ∧ x < off + l.length := by
  intro l
  induction l with
  | nil => intro off hx; simp [KeySelector.buildWeightedListAux] at hx
  | cons s rest ih =>
      intro off hx
      simp only [KeySelector.buildWeightedListAux, List.mem_append] at hx
      rcases hx with hx | hx
      · have := List.eq_of_mem_replicate hx
        subst this
        simp
      · have := ih (off + 1) hx
        simp
        omega

/-- Each states-index j appears in the weighted list exactly weight-of-j
times. -/
theorem count_buildWeightedListAux :
    ∀ (l : List KeyState) (off i : ℕ),
      (KeySelector.buildWeightedListAux l off).count (off + i)
        = ((l.get? i).map (fun s => s.config.weight.getD 1)).getD 0 := by
  intro l
  induction l with
  | nil => intro off i; simp [KeySelector.buildWeightedListAux]
  | cons s rest ih =>
      intro off i
      simp only [KeySelector.buildWeightedListAux, List.count_append]
      cases i with
      | zero =>
          have hnot : (off + 0) ∉ KeySelector.buildWeightedListAux rest (off + 1) := by
            intro hmem
            have := mem_buildWeightedListAux rest (off + 1) hmem
            omega
          rw [List.count_eq_zero.mpr hnot, List.count_replicate]
          simp
      | succ i' =>
          have hrep : (List.replicate (s.config.weight.getD 1) off).count (off + (i' + 1))
              = 0 := by
            rw [List.count_replicate]
            have : ¬ (off + (i' + 1) == off) = true := by
              simp
            simp [this]
          rw [hrep]
          have harith : off + (i' + 1) = (off + 1) + i' := by omega
          rw [harith, ih (off + 1) i']
          simp

/-- The weighted list has length equal to the sum of the weights. -/
theorem length_buildWeightedListAux :
    ∀ (l : List KeyState) (off : ℕ),
      (KeySelector.buildWeightedListAux l off).length
        = (l.map (fun s => s.config.weight.getD 1)).sum := by
  intro l
  induction l with
  | nil => intro off; simp [KeySelector.buildWeightedListAux]
  | cons s rest ih =>
      intro off
      simp [KeySelector.buildWeightedListAux, ih (off + 1)]

/-- A key state on which every availability check passes without mutating
anything: circuit closed, unlimited quota, no rps, no temporary rate-limit
window.  Such a key is always available and stays unchanged across
selections, realizing the "both always available / no availability changes"
hypothesis of the fairness claims. -/
def Benign (s : KeyState) : Prop :=
  s.circuitState = CircuitState.closed ∧
  s.config.quota = QuotaConfig.unlimited ∧
  s.config.rps = none ∧
  s.rateLimitedUntil = none

instance (s : KeyState) : Decidable (Benign s) := by
  unfold Benign
  infer_instance

/-- A benign key passes isKeyAvailable without mutation. -/
theorem isKeyAvailable_benign (warned : List String) (s : KeyState) (now : Date)
    (h : Benign s) :
    KeySelector.isKeyAvailable warned s now = (true, warned, s) := by
  obtain ⟨hc, hq, hrps, hru⟩ := h
  simp [KeySelector.isKeyAvailable, CircuitBreaker.isAvailable,
    CircuitBreaker.checkTransition, QuotaTracker.hasQuota,
    QuotaTracker.checkPeriodReset, QuotaTracker.shouldReset,
    RateLimiter.hasCapacity, RateLimiter.getAvailableTokens,
    QuotaConfig.limit?, hc, hq, hrps, hru]

/-- With all keys benign and no exclusions, the scan loop returns at its very
first iteration: the key at weighted position (start + i) mod len, cursor
just past it, states and warned set untouched. -/
theorem selectLoop_benign (now : Date) (weighted : List ℕ)
    (states : List KeyState) (warned : List String)
    (len start cursor0 fuel i : ℕ)
    (hlen : len = weighted.length) (hpos : 0 < len)
    (hidx : ∀ x ∈ weighted, x < states.length)
    (hb : ∀ s ∈ states, Benign s) :
    KeySelector.selectLoop now weighted [] len start cursor0 (fuel + 1) i states warned
      = ⟨some (weighted.getD ((start + i) % len) 0), states, warned,
          (start + i) % len + 1⟩ := by
  have hmod : (start + i) % len < weighted.length := by
    rw [← hlen]
    exact Nat.mod_lt _ hpos
  have hgd : weighted.getD ((start + i) % len) 0
      = weighted.get ⟨(start + i) % len, hmod⟩ := by
    rw [List.getD_eq_getElem weighted 0 hmod]
    rfl
  have hsi : weighted.getD ((start + i) % len) 0 < states.length := by
    rw [hgd]
    exact hidx _ (weighted.get_mem _ hmod)
  have hget : states.get? (weighted.getD ((start + i) % len) 0)
      = some (states.get ⟨weighted.getD ((start + i) % len) 0, hsi⟩) :=
    List.get?_eq_get hsi
  have hbs : Benign (states.get ⟨weighted.getD ((start + i) % len) 0, hsi⟩) :=
    hb _ (states.get_mem _ hsi)
  simp only [KeySelector.selectLoop, hget]
  rw [isKeyAvailable_benign warned _ now hbs]
  simp only [List.get_eq_getElem]
  rw [set_get_eq states _ hsi]
  simp

/-- With all keys benign, selectKey picks the weighted entry at the cursor
position (mod the weighted length) and advances the cursor one step. -/
theorem selectKey_benign (now : Date) (states : List KeyState)
    (warned : List String) (cursor : ℕ)
    (hb : ∀ s ∈ states, Benign s)
    (hpos : 0 < (KeySelector.buildWeightedList states).length) :
    KeySelector.selectKey now states warned [] cursor
      = ⟨some ((KeySelector.buildWeightedList states).getD
            (cursor % (KeySelector.buildWeightedList states).length) 0),
          states, warned,
          cursor % (KeySelector.buildWeightedList states).length + 1⟩ := by
  have hne : states.length ≠ 0 := by
    intro h0
    rw [List.length_eq_zero] at h0
    subst h0
    simp [KeySelector.buildWeightedList, KeySelector.buildWeightedListAux] at hpos
  have hidx : ∀ x ∈ KeySelector.buildWeightedList states, x < states.length := by
    intro x hx
    have := mem_buildWeightedListAux states 0 hx
    omega
  obtain ⟨n, hn⟩ : ∃ n, (KeySelector.buildWeightedList states).length = n + 1 :=
    ⟨(KeySelector.buildWeightedList states).length - 1, by omega⟩
  unfold KeySelector.selectKey
  dsimp only
  rw [if_neg hne, if_neg (by omega), hn]
  rw [selectLoop_benign now (KeySelector.buildWeightedList states) states warned
    (n + 1) (cursor % (n + 1)) cursor n 0 hn.symm (by omega) hidx hb]
  have h0 : cursor % (n + 1) + 0 = cursor % (n + 1) := rfl
  rw [h0, Nat.mod_eq_of_lt (Nat.mod_lt _ (by omega))]

/-- With all keys benign, the stream of N selections is the weighted list
read cyclically from the starting cursor. -/
theorem selectN_benign (now : Date) (states : List KeyState)
    (warned : List String) (hb : ∀ s ∈ states, Benign s)
    (hpos : 0 < (KeySelector.buildWeightedList states).length) :
    ∀ (N cursor : ℕ),
      KeySelector.selectN now N states warned cursor
        = (List.range N).map (fun k =>
            (KeySelector.buildWeightedList states).getD
              ((cursor % (KeySelector.buildWeightedList states).length + k)
                % (KeySelector.buildWeightedList states).length) 0) := by
  intro N
  induction N with
  | zero => intro cursor; simp [KeySelector.selectN]
  | succ n ih =>
      intro cursor
      rw [KeySelector.selectN, selectKey_benign now states warned cursor hb hpos]
      simp only
      rw [ih (cursor % (KeySelector.buildWeightedList states).length + 1)]
      rw [List.range_succ_eq_map]
      simp only [List.map_cons, List.map_map]
      congr 1
      · congr 1
        rw [Nat.add_zero,
          Nat.mod_eq_of_lt (Nat.mod_lt _ (by omega))]
      · apply List.map_congr_left
        intro k _
        simp only [Function.comp]
        congr 1
        rw [Nat.mod_add_mod]
        congr 1
        omega

/-- Reading a list cyclically for one full revolution from any start gives a
rotation of the list. -/
theorem cyclic_block_eq_rotate {α : Type} [Inhabited α] (l : List α) (n : ℕ)
    (hn : 0 < l.length) :
    (List.range l.length).map (fun j => l.getD ((n + j) % l.length) default)
      = l.rotate n := by
  apply List.ext_get
  · simp [List.length_rotate]
  · intro k h1 h2
    simp only [List.get_map, List.get_range, List.get_rotate]
    rw [List.getD_eq_getElem l default (Nat.mod_lt _ hn), Nat.add_comm n k]
    rfl

/-- Counting in a cyclic read of m full revolutions: every element of the
list is hit exactly m times. -/
theorem count_cyclic (l : List ℕ) (hn : 0 < l.length) (x : ℕ) :
    ∀ (m s : ℕ),
      ((List.range (m * l.length)).map (fun k => l.getD ((s + k) % l.length) 0)).count x
        = m * l.count x := by
  intro m
  induction m with
  | zero => intro s; simp
  | succ p ih =>
      intro s
      have hsplit : (p + 1) * l.length = p * l.length + l.length := by ring
      rw [hsplit, List.range_add, List.map_append, List.count_append, ih s]
      have hmap : (List.map (fun k => l.getD ((s + k) % l.length) 0)
            ((List.range l.length).map (fun x => p * l.length + x)))
          = (List.range l.length).map (fun j => l.getD ((s + j) % l.length) 0) := by
        rw [List.map_map]
        apply List.map_congr_left
        intro j _
        simp only [Function.comp]
        congr 1
        have : s + (p * l.length + j) = (s + j) + p * l.length := by ring
        rw [this, Nat.add_mul_mod_self_right]
      rw [hmap]
      have hrot := cyclic_block_eq_rotate l s hn
      simp only [Nat.default_eq_zero] at hrot
      rw [hrot, (List.rotate_perm l s).count_eq]
      ring

/-- C7: weighted round-robin fairness.  Over N consecutive selections with
all keys always available and unchanged (benign keys), starting from any
cursor, with N a multiple of the weight sum L, key i is chosen exactly
N / L * weight_i times.  In particular, with weights 2 and 1, nine
selections return the first key six times and the second key three times. -/
theorem weighted_round_robin_fairness (now : Date) (states : List KeyState)
    (warned : List String) (cursor N : ℕ)
    (hb : ∀ s ∈ states, Benign s)
    (hw : ∀ s ∈ states, 0 < s.config.weight.getD 1)
    (hne : states ≠ [])
    (L : ℕ) (hL : L = (states.map (fun s => s.config.weight.getD 1)).sum)
    (hdvd : L ∣ N)
    (i : ℕ) (hi : i < states.length) :
    (KeySelector.selectN now N states warned cursor).count i
      = N / L * (states.get ⟨i, hi⟩).config.weight.getD 1 := by
  have hlen : (KeySelector.buildWeightedList states).length = L := by
    rw [hL]
    exact length_buildWeightedListAux states 0
  have hLpos : 0 < L := by
    rcases states with _ | ⟨s0, rest⟩
    · exact absurd rfl hne
    · rw [hL]
      simp only [List.map_cons, List.sum_cons]
      have := hw s0 (List.mem_cons_self _ _)
      omega
  have hpos : 0 < (KeySelector.buildWeightedList states).length := by
    rw [hlen]
    exact hLpos
  rw [selectN_benign now states warned hb hpos N cursor]
  obtain ⟨m, hm⟩ := hdvd
  have hN : N = m * (KeySelector.buildWeightedList states).length := by
    rw [hlen, hm, Nat.mul_comm]
  rw [hN, count_cyclic (KeySelector.buildWeightedList states) hpos i m
    (cursor % (KeySelector.buildWeightedList states).length)]
  have hcount : (KeySelector.buildWeightedList states).count i
      = (states.get ⟨i, hi⟩).config.weight.getD 1 := by
    have hc := count_buildWeightedListAux states 0 i
    rw [List.get?_eq_get hi] at hc
    rw [KeySelector.buildWeightedList]
    rw [Nat.zero_add] at hc
    rw [hc]
    rfl
  rw [hcount, hlen, Nat.mul_div_cancel _ hLpos]

/-- A benign key with weight 2 (scenario E8). -/
def kA : KeyState := createKeyState (keyU "key-1" (some 2)) date0

/-- A benign key with weight 1 (scenario E8). -/
def kB : KeyState := createKeyState (keyU "key-2" (some 1)) date0

/-- C7 witness: two always-available keys of weights 2 and 1; nine
consecutive selections yield the first key six times and the second key
three times. -/
theorem weighted_round_robin_fairness_witness :
    (KeySelector.selectN date0 9 [kA, kB] [] 0).count 0 = 6 ∧
    (KeySelector.selectN date0 9 [kA, kB] [] 0).count 1 = 3 := by
  have h0 := weighted_round_robin_fairness date0 [kA, kB] [] 0 9
    (by decide) (by decide) (by decide) 3 (by decide) (by decide) 0 (by decide)
  have h1 := weighted_round_robin_fairness date0 [kA, kB] [] 0 9
    (by decide) (by decide) (by decide) 3 (by decide) (by decide) 1 (by decide)
  exact ⟨h0, h1⟩

end Keyrot
